import Mathlib

/-!
Verification of the goose subagent core: a shallow embedding of
`crates/goose/src/agents/subagent.rs` and
`crates/goose/src/agents/subagent_manager.rs`, together with theorems
settling the specification claims about the subagent state machine and
the manager's registry lifecycle.

Modelling conventions:
- async/await and locks disappear: every operation is a pure state
  transition, matching the spec's guarantee that `reply` calls on one
  instance are serialized and registry mutations are brief.
- the LLM provider is an oracle: a list of results consumed one per
  completion call inside a single `reply`; tool dispatch is a function
  supplied by the environment.
- `Nat` models the Rust `usize` turn counter (it is only incremented by
  one, so overflow wrapping is unreachable in any realistic run and the
  source relies on exactly this).
-/

namespace Goose

/-- Role of a message (mcp_core::role::Role): user or assistant. -/
inductive Role where
  | user
  | assistant
deriving DecidableEq, Repr

/-- A concrete tool invocation (mcp_core::tool::ToolCall): name plus arguments. -/
structure ToolCall where
  name : String
  arguments : String
deriving DecidableEq, Repr

/-- Tool failure (mcp_core::handler::ToolError); only the variant used by the
subagent code is modelled. -/
inductive ToolError where
  | executionError (msg : String)
deriving DecidableEq, Repr

deriving instance DecidableEq for Except

/-- Result of running a tool: content on success or a `ToolError`. -/
abbrev ToolOutcome := Except ToolError String

/-- Modelled from the spec: a tool-call request embedded in a model response
(`message::ToolRequest`, declared outside the provided sources): an id and
either a parsed tool call or the parse failure. -/
structure ToolRequest where
  id : String
  tool_call : Except ToolError ToolCall
deriving DecidableEq, Repr

/-- Modelled from the spec: one content item of a `message::Message`
(declared outside the provided sources); only the variants the subagent
code constructs or inspects are modelled. -/
inductive MessageContent where
  | text (t : String)
  | toolRequest (req : ToolRequest)
  | toolResponse (id : String) (result : ToolOutcome)
  | contextLengthExceeded (t : String)
deriving DecidableEq, Repr

/-- Modelled from the spec: `message::Message` — a role plus an ordered list
of content items. -/
structure Message where
  role : Role
  content : List MessageContent
deriving DecidableEq, Repr

/-- `Message::user()`: empty user-role message. -/
def Message.user : Message := { role := Role.user, content := [] }

/-- `Message::assistant()`: empty assistant-role message. -/
def Message.assistant : Message := { role := Role.assistant, content := [] }

/-- `Message::with_text`: append a text content item. -/
def Message.with_text (m : Message) (t : String) : Message :=
  { m with content := m.content ++ [MessageContent.text t] }

/-- `Message::with_tool_response`: append a tool-response content item. -/
def Message.with_tool_response (m : Message) (id : String) (r : ToolOutcome) : Message :=
  { m with content := m.content ++ [MessageContent.toolResponse id r] }

/-- `Message::with_context_length_exceeded`: append the dedicated
context-length-exceeded content item. -/
def Message.with_context_length_exceeded (m : Message) (t : String) : Message :=
  { m with content := m.content ++ [MessageContent.contextLengthExceeded t] }

/-- `providers::errors::ProviderError`, restricted to the three outcomes the
reply loop distinguishes (spec section 6: ContextLengthExceeded,
RateLimitExceeded, Other). -/
inductive ProviderError where
  | contextLengthExceeded (msg : String)
  | rateLimitExceeded (msg : String)
  | other (msg : String)
deriving DecidableEq, Repr

/-- `recipe::Recipe`, restricted to the fields the subagent code reads:
title, optional instructions, optional declared extension names. -/
structure Recipe where
  title : String
  instructions : Option String
  extensions : Option (List String)
deriving DecidableEq, Repr

/-- `SubAgentStatus` from subagent.rs: Ready, Processing, Completed(reason),
Terminated. (The source enum has no `Failed` variant.) -/
inductive SubAgentStatus where
  | Ready
  | Processing
  | Completed (reason : String)
  | Terminated
deriving DecidableEq, Repr

/-- A status is terminal when it is `Completed` or `Terminated` (the only
terminal variants present in the source enum). -/
def SubAgentStatus.isTerminal : SubAgentStatus → Bool
  | SubAgentStatus.Completed _ => true
  | SubAgentStatus.Terminated => true
  | _ => false

/-- `SubAgentConfig` from subagent.rs. -/
structure SubAgentConfig where
  id : String
  recipe : Recipe
  max_turns : Option Nat
  timeout_seconds : Option Nat
deriving DecidableEq, Repr

/-- The mutable state of one `SubAgent` (subagent.rs): the fields behind its
`Mutex`/`RwLock` cells, flattened into a record since `reply` calls are
serialized per instance. -/
structure SubAgent where
  id : String
  conversation : List Message
  status : SubAgentStatus
  config : SubAgentConfig
  turn_count : Nat
  recipe_extensions : List String
  missing_extensions : List String
deriving DecidableEq, Repr

/-- `SubAgent::new`: fresh subagent in `Ready` state with empty conversation,
zero turns, and the recipe's declared extensions partitioned into those
present in the host's extension manager (`recipe_extensions`) and those
absent (`missing_extensions`). `available` is the name list the extension
manager reports. -/
def SubAgent.new (available : List String) (config : SubAgentConfig) : SubAgent :=
  let exts := config.recipe.extensions.getD []
  { id := config.id
    conversation := []
    status := SubAgentStatus.Ready
    config := config
    turn_count := 0
    recipe_extensions := exts.filter (fun e => available.contains e)
    missing_extensions := exts.filter (fun e => !available.contains e) }

/-- `SubAgent::add_message`: push a message onto the conversation. -/
def SubAgent.add_message (s : SubAgent) (m : Message) : SubAgent :=
  { s with conversation := s.conversation ++ [m] }

/-- `SubAgent::set_status`. -/
def SubAgent.set_status (s : SubAgent) (st : SubAgentStatus) : SubAgent :=
  { s with status := st }

/-- `SubAgent::is_completed`: status is `Completed(_)` or `Terminated`. -/
def SubAgent.is_completed (s : SubAgent) : Bool :=
  s.status.isTerminal

/-- `SubAgent::terminate`: set status to `Terminated`; always returns `Ok(())`
in the source, so the model returns just the updated state. -/
def SubAgent.terminate (s : SubAgent) : SubAgent :=
  s.set_status SubAgentStatus.Terminated

/-- Environment supplied to a reply round: the provider oracle (successive
completion results), the tool dispatcher, the extension manager's tool
catalog (`get_prefixed_tools`, fallible in the source), and recipe
resolution plus the enabled-extension list for the manager. -/
structure Env where
  provider : List (Except ProviderError Message)
  dispatch : ToolCall → Except String ToolOutcome
  getTools : Except String (List String)
  recipes : String → Except String Recipe
  availableExtensions : List String

/-- Rust `Debug` rendering of a tool outcome, as interpolated by
`format!("Tool response: {:?}", tool_response)`; the exact shape is
irrelevant to every claim, only that an entry embedding the outcome is
appended. -/
def formatToolOutcome : ToolOutcome → String
  | Except.ok s => "Ok([" ++ s ++ "])"
  | Except.error (ToolError.executionError e) => "Err(ExecutionError(" ++ e ++ "))"

/-- Extract the tool requests embedded in a response, in emission order
(the `filter_map` over `response.content` in subagent.rs). -/
def toolRequestsOf (m : Message) : List ToolRequest :=
  m.content.filterMap fun c =>
    match c with
    | MessageContent.toolRequest r => some r
    | _ => none

/-- The per-request body of the tool loop in `reply_subagent`: requests whose
embedded `tool_call` is `Err` are skipped (`if let Ok(tool_call)`); for the
rest, dispatch success appends a "Tool response: …" user entry to the
conversation and the working message list and attaches the outcome to
`final_response`; dispatch failure attaches an `ExecutionError` outcome and
appends a "Tool error: …" user entry. Returns (subagent, messages,
final_response) after all requests. -/
def processToolRequests (env : Env) :
    List ToolRequest → SubAgent → List Message → Message →
    SubAgent × List Message × Message
  | [], s, msgs, fr => (s, msgs, fr)
  | req :: rest, s, msgs, fr =>
    match req.tool_call with
    | Except.error _ => processToolRequests env rest s msgs fr
    | Except.ok tc =>
      match env.dispatch tc with
      | Except.ok outcome =>
        let fr' := fr.with_tool_response req.id outcome
        let entry := Message.user.with_text ("Tool response: " ++ formatToolOutcome outcome)
        processToolRequests env rest (s.add_message entry) (msgs ++ [entry]) fr'
      | Except.error e =>
        let fr' := fr.with_tool_response req.id (Except.error (ToolError.executionError e))
        let entry := Message.user.with_text ("Tool error: " ++ e)
        processToolRequests env rest (s.add_message entry) (msgs ++ [entry]) fr'

/-- Terminal status recorded when a provider call fails, one case per match
arm of the reply loop in subagent.rs. -/
def providerErrorReason : ProviderError → String
  | ProviderError.contextLengthExceeded _ => "Context length exceeded"
  | ProviderError.rateLimitExceeded _ => "Rate limit exceeded"
  | ProviderError.other e => "Error: " ++ e

/-- In-band assistant message returned when a provider call fails, one case
per match arm of the reply loop in subagent.rs. -/
def providerErrorMessage : ProviderError → Message
  | ProviderError.contextLengthExceeded _ =>
    Message.assistant.with_context_length_exceeded
      "The context length of the model has been exceeded. Please start a new session and try again."
  | ProviderError.rateLimitExceeded _ =>
    Message.assistant.with_text "Rate limit exceeded. Please try again later."
  | ProviderError.other e =>
    Message.assistant.with_text
      ("Ran into this error: " ++ e ++
        ".\n\nPlease retry if you think this is a transient or recoverable error.")

/-- The `loop` of `reply_subagent`, consuming the provider oracle one result
per iteration. An `Ok` response with no tool requests is appended to the
conversation, status becomes `Ready`, and the response is returned; with
tool requests, they are processed in order and the loop re-invokes the
provider. A provider error ends the round with a terminal `Completed`
status and an in-band assistant message. An exhausted oracle (`[]`) models
a round that has not yet produced a final answer: the state accumulated so
far is kept and no message results. -/
def replyLoop (env : Env) :
    List (Except ProviderError Message) → SubAgent → List Message →
    SubAgent × Option Message
  | [], s, _ => (s, none)
  | Except.ok response :: rest, s, msgs =>
    let requests := toolRequestsOf response
    if requests.isEmpty then
      ((s.add_message response).set_status SubAgentStatus.Ready, some response)
    else
      let out := processToolRequests env requests s msgs response
      replyLoop env rest out.1 out.2.1
  | Except.error e :: _, s, _ =>
    (s.set_status (SubAgentStatus.Completed (providerErrorReason e)),
     some (providerErrorMessage e))

/-- Outcome of `reply_subagent` as seen by its caller. `limitExceeded` is the
hard error from the max-turns precondition; `toolsError` is the hard error
propagated by the `?` on `get_prefixed_tools`; `message` is `Ok(response)`;
`pending` models a round whose provider oracle ran out (the async call has
not returned). -/
inductive ReplyResult where
  | limitExceeded (msg : String)
  | toolsError (msg : String)
  | message (m : Message)
  | pending
deriving DecidableEq, Repr

/-- Whether the max-turns precondition of `reply_subagent` fires:
`max_turns` is set and `turn_count >= max_turns`. -/
def turnLimitHit (s : SubAgent) : Bool :=
  match s.config.max_turns with
  | some m => decide (m ≤ s.turn_count)
  | none => false

/-- The accepted-path body of `reply_subagent`, after the precondition: set
status `Processing`, append the user message, increment `turn_count`, fetch
the tool catalog (whose failure propagates as a hard error), then run the
provider loop. -/
def replyBody (env : Env) (message : String) (s : SubAgent) : SubAgent × ReplyResult :=
  let s1 := s.set_status SubAgentStatus.Processing
  let s2 := s1.add_message (Message.user.with_text message)
  let s3 := { s2 with turn_count := s2.turn_count + 1 }
  match env.getTools with
  | Except.error e => (s3, ReplyResult.toolsError e)
  | Except.ok _ =>
    match replyLoop env env.provider s3 s3.conversation with
    | (s4, some m) => (s4, ReplyResult.message m)
    | (s4, none) => (s4, ReplyResult.pending)

/-- `SubAgent::reply_subagent`: if `max_turns` is set and already reached,
set status `Completed("Maximum turns exceeded")` and return the hard error
`Err(anyhow!("Maximum turns ({max}) exceeded"))` without touching the
conversation or the counter; otherwise run the accepted-path body. -/
def reply_subagent (env : Env) (message : String) (s : SubAgent) :
    SubAgent × ReplyResult :=
  match s.config.max_turns with
  | some m =>
    if m ≤ s.turn_count then
      (s.set_status (SubAgentStatus.Completed "Maximum turns exceeded"),
       ReplyResult.limitExceeded ("Maximum turns (" ++ toString m ++ ") exceeded"))
    else
      replyBody env message s
  | none => replyBody env message s

/-! ## SubAgentManager (subagent_manager.rs)

The registry (`subagents: HashMap<String, Arc<SubAgent>>`) is modelled as an
association list with unique keys: `insertSub` replaces any previous binding,
`removeSub` deletes the key, mirroring `HashMap::insert` / `remove`. The
handle map is modelled by its key set plus an `aborted` log recording which
handles have had `abort()` called. Because a removed `Arc<SubAgent>` stays
alive for other holders, removed entries move to a `detached` list so that a
subagent's status after deregistration remains observable, as it is through
the Arc in the source. -/

/-- Modelled from the spec: `subagent_types::SpawnSubAgentArgs` (declared
outside the provided sources): recipe name, initial message, optional
max-turns and timeout, exactly the fields `spawn_interactive_subagent` and
`handle_spawn_subagent` read. -/
structure SpawnSubAgentArgs where
  recipe_name : String
  message : String
  max_turns : Option Nat
  timeout_seconds : Option Nat
deriving DecidableEq, Repr

/-- Lookup in an association list keyed by subagent id. -/
def lookupSub (id : String) (l : List (String × SubAgent)) : Option SubAgent :=
  (l.find? (fun p => p.1 = id)).map (fun p => p.2)

/-- `HashMap::insert`: bind `id`, replacing any previous binding. -/
def insertSub (id : String) (s : SubAgent) (l : List (String × SubAgent)) :
    List (String × SubAgent) :=
  (id, s) :: l.filter (fun p => p.1 ≠ id)

/-- `HashMap::remove`: delete the binding for `id` (no-op when absent). -/
def removeSub (id : String) (l : List (String × SubAgent)) :
    List (String × SubAgent) :=
  l.filter (fun p => p.1 ≠ id)

/-- State of a `SubAgentManager`: the registry, the background-handle key
set, the log of aborted handles, and the detached subagent objects that
out-of-registry `Arc`s still reference. -/
structure ManagerState where
  subagents : List (String × SubAgent)
  handles : List String
  aborted : List String
  detached : List (String × SubAgent)
deriving DecidableEq, Repr

/-- `SubAgentManager::new`: empty registry and handle map. -/
def ManagerState.new : ManagerState :=
  { subagents := [], handles := [], aborted := [], detached := [] }

/-- `SubAgentManager::get_subagent`: registry lookup. -/
def get_subagent (st : ManagerState) (id : String) : Option SubAgent :=
  lookupSub id st.subagents

/-- `SubAgentManager::list_subagents`: the registry's key set. -/
def list_subagents (st : ManagerState) : List String :=
  st.subagents.map (fun p => p.1)

/-- `SubAgentManager::get_active_count`. -/
def get_active_count (st : ManagerState) : Nat :=
  st.subagents.length

/-- `SubAgentManager::terminate_subagent`: remove the id from the registry;
if it was present, set its status to `Terminated` (the object moves to
`detached`, as the source's Arc outlives the map entry), remove and abort
its background handle, and return `Ok`; if absent, return the NotFound
error with no state change (the source's `remove` of a missing key is a
no-op and it returns before touching the handle map). -/
def terminate_subagent (st : ManagerState) (id : String) :
    ManagerState × Except String Unit :=
  match lookupSub id st.subagents with
  | none => (st, Except.error ("Subagent " ++ id ++ " not found"))
  | some s =>
    let st1 : ManagerState :=
      { st with
        subagents := removeSub id st.subagents
        detached := (id, s.terminate) :: st.detached }
    let st2 : ManagerState :=
      if id ∈ st1.handles then
        { st1 with
          handles := st1.handles.filter (fun h => h ≠ id)
          aborted := id :: st1.aborted }
      else st1
    (st2, Except.ok ())

/-- `SubAgentManager::terminate_all_subagents`: snapshot the registered ids,
terminate each in turn — a failure on one id is logged and does not abort
the rest — and return `Ok(())` (the source's return type carries no count). -/
def terminate_all_subagents (st : ManagerState) : ManagerState × Except String Unit :=
  let ids := st.subagents.map (fun p => p.1)
  (ids.foldl (fun s id => (terminate_subagent s id).1) st, Except.ok ())

/-- `SubAgentManager::cleanup_completed_subagents`: collect the ids whose
subagent `is_completed` (status `Completed(_)` or `Terminated`), terminate
each — individual failures are logged, not propagated — and return the
number of collected ids. -/
def cleanup_completed_subagents (st : ManagerState) : ManagerState × Nat :=
  let completedIds :=
    (st.subagents.filter (fun p => p.2.is_completed)).map (fun p => p.1)
  let count := completedIds.length
  (completedIds.foldl (fun s id => (terminate_subagent s id).1) st, count)

/-- `SubAgentManager::send_message_to_subagent`: NotFound error for an
unknown id; otherwise append one user message carrying the text to that
subagent's conversation and return the acknowledgement string. No provider
call is made and nothing else changes. -/
def send_message_to_subagent (st : ManagerState) (id : String) (message : String) :
    ManagerState × Except String String :=
  match lookupSub id st.subagents with
  | none => (st, Except.error ("Subagent " ++ id ++ " not found"))
  | some _ =>
    let um := Message.user.with_text message
    ({ st with
        subagents := st.subagents.map
          (fun p => if p.1 = id then (p.1, p.2.add_message um) else p) },
     Except.ok ("Message sent to subagent " ++ id))

/-- `SubAgentManager::spawn_interactive_subagent`: resolve the recipe (a
failure propagates before anything is registered); build the config
(`with_max_turns` / `with_timeout` applied when the args carry them);
construct the subagent and its handle and insert both; run the initial
`reply`. On reply success the id is returned; on reply failure the spawn is
rolled back via `terminate_subagent` (whose own error would be propagated
by the `?`, but the id was just inserted) and the reply error is returned.
`freshId` stands for the UUID generated in `SubAgentConfig::new`. The
result is `none` when the initial reply is still pending (its provider
oracle ran out), since then the source's `spawn` has not returned. -/
def spawn_interactive_subagent (env : Env) (freshId : String)
    (args : SpawnSubAgentArgs) (st : ManagerState) :
    Option (ManagerState × Except String String) :=
  match env.recipes args.recipe_name with
  | Except.error e => some (st, Except.error e)
  | Except.ok recipe =>
    let config : SubAgentConfig :=
      { id := freshId
        recipe := recipe
        max_turns := args.max_turns
        timeout_seconds := args.timeout_seconds }
    let sub0 := SubAgent.new env.availableExtensions config
    let st1 : ManagerState :=
      { st with
        subagents := insertSub freshId sub0 st.subagents
        handles := freshId :: st.handles.filter (fun h => h ≠ freshId) }
    let out := reply_subagent env args.message sub0
    -- The registry holds an Arc to the same object `reply` mutates; the
    -- post-reply state is therefore what the registry entry now contains.
    let st2 : ManagerState :=
      { st1 with subagents := insertSub freshId out.1 st1.subagents }
    match out.2 with
    | ReplyResult.message _ => some (st2, Except.ok freshId)
    | ReplyResult.pending => none
    | ReplyResult.limitExceeded e =>
      match terminate_subagent st2 freshId with
      | (st3, Except.ok _) => some (st3, Except.error e)
      | (st3, Except.error te) => some (st3, Except.error te)
    | ReplyResult.toolsError e =>
      match terminate_subagent st2 freshId with
      | (st3, Except.ok _) => some (st3, Except.error e)
      | (st3, Except.error te) => some (st3, Except.error te)

/-! ## Declarative characterization of the tool loop -/

/-- The conversation entries one pass of the tool loop appends, in request
order: one "Tool response: …" or "Tool error: …" user entry per request
whose embedded tool call parsed, nothing for a request whose tool call is
an `Err`. -/
def toolEntries (env : Env) : List ToolRequest → List Message
  | [] => []
  | req :: rest =>
    match req.tool_call with
    | Except.error _ => toolEntries env rest
    | Except.ok tc =>
      match env.dispatch tc with
      | Except.ok outcome =>
        Message.user.with_text ("Tool response: " ++ formatToolOutcome outcome) ::
          toolEntries env rest
      | Except.error e =>
        Message.user.with_text ("Tool error: " ++ e) :: toolEntries env rest

/-- The content items one pass of the tool loop attaches to the working
response, in request order: the dispatched outcome on success, an
`ExecutionError` outcome on dispatch failure, nothing for a request whose
tool call is an `Err`. -/
def toolAttachments (env : Env) : List ToolRequest → List MessageContent
  | [] => []
  | req :: rest =>
    match req.tool_call with
    | Except.error _ => toolAttachments env rest
    | Except.ok tc =>
      match env.dispatch tc with
      | Except.ok outcome =>
        MessageContent.toolResponse req.id outcome :: toolAttachments env rest
      | Except.error e =>
        MessageContent.toolResponse req.id (Except.error (ToolError.executionError e)) ::
          toolAttachments env rest

/-- Status-of-reply-failure view used to state rollback claims: the error
text of a hard `reply` failure, `none` on success or a pending round. -/
def replyError : ReplyResult → Option String
  | ReplyResult.limitExceeded e => some e
  | ReplyResult.toolsError e => some e
  | _ => none

/-! ## Helper lemmas -/

theorem processToolRequests_eq (env : Env) (reqs : List ToolRequest)
    (s : SubAgent) (msgs : List Message) (fr : Message) :
    processToolRequests env reqs s msgs fr =
      ({ s with conversation := s.conversation ++ toolEntries env reqs },
       msgs ++ toolEntries env reqs,
       { fr with content := fr.content ++ toolAttachments env reqs }) := by
  induction reqs generalizing s msgs fr with
  | nil => simp [processToolRequests, toolEntries, toolAttachments]
  | cons req rest ih =>
    cases hc : req.tool_call with
    | error e =>
      simp [processToolRequests, toolEntries, toolAttachments, hc, ih]
    | ok tc =>
      cases hd : env.dispatch tc with
      | ok outcome =>
        simp [processToolRequests, toolEntries, toolAttachments, hc, hd, ih,
          SubAgent.add_message, Message.with_tool_response]
      | error e =>
        simp [processToolRequests, toolEntries, toolAttachments, hc, hd, ih,
          SubAgent.add_message, Message.with_tool_response]

theorem replyLoop_turn_count (env : Env) (l : List (Except ProviderError Message))
    (s : SubAgent) (msgs : List Message) :
    ((replyLoop env l s msgs).1).turn_count = s.turn_count := by
  induction l generalizing s msgs with
  | nil => rfl
  | cons r rest ih =>
    cases r with
    | ok response =>
      by_cases hreq : (toolRequestsOf response).isEmpty
      · simp [replyLoop, hreq, SubAgent.add_message, SubAgent.set_status]
      · simp [replyLoop, hreq, processToolRequests_eq, ih]
    | error e =>
      simp [replyLoop, SubAgent.set_status]

theorem replyBody_turn_count (env : Env) (msg : String) (s : SubAgent) :
    ((replyBody env msg s).1).turn_count = s.turn_count + 1 := by
  unfold replyBody
  cases ht : env.getTools with
  | error e => simp [SubAgent.add_message, SubAgent.set_status]
  | ok ts =>
    rcases hl : replyLoop env env.provider
        { (s.set_status SubAgentStatus.Processing).add_message
            (Message.user.with_text msg) with
          turn_count :=
            ((s.set_status SubAgentStatus.Processing).add_message
              (Message.user.with_text msg)).turn_count + 1 }
        (((s.set_status SubAgentStatus.Processing).add_message
            (Message.user.with_text msg)).conversation) with ⟨s4, om⟩
    have h4 := replyLoop_turn_count env env.provider
      ({ (s.set_status SubAgentStatus.Processing).add_message
          (Message.user.with_text msg) with
        turn_count :=
          ((s.set_status SubAgentStatus.Processing).add_message
            (Message.user.with_text msg)).turn_count + 1 })
      (((s.set_status SubAgentStatus.Processing).add_message
          (Message.user.with_text msg)).conversation)
    rw [hl] at h4
    cases om with
    | some m =>
      simp only [hl]
      simpa [SubAgent.add_message, SubAgent.set_status] using h4
    | none =>
      simp only [hl]
      simpa [SubAgent.add_message, SubAgent.set_status] using h4

theorem lookupSub_cons_self (id : String) (s : SubAgent)
    (l : List (String × SubAgent)) :
    lookupSub id ((id, s) :: l) = some s := by
  unfold lookupSub
  rw [List.find?_cons_of_pos]
  · rfl
  · simp

theorem removeSub_not_mem (id : String) (l : List (String × SubAgent)) :
    lookupSub id (removeSub id l) = none := by
  unfold lookupSub removeSub
  rw [Option.map_eq_none', List.find?_eq_none]
  intro p hp
  have hne := (List.mem_filter.mp hp).2
  simp only [decide_eq_true_eq] at hne ⊢
  exact hne

theorem removeSub_of_lookup_none (id : String) (l : List (String × SubAgent))
    (h : lookupSub id l = none) : removeSub id l = l := by
  unfold lookupSub at h
  unfold removeSub
  rw [List.filter_eq_self]
  intro p hp
  have hfind := Option.map_eq_none'.mp h
  rw [List.find?_eq_none] at hfind
  have := hfind p hp
  simp only [decide_eq_true_eq] at this ⊢
  exact this

theorem not_mem_filter_ne_self (id : String) (l : List String) :
    id ∉ l.filter (fun h => h ≠ id) := by
  intro hmem
  have := (List.mem_filter.mp hmem).2
  simp at this

theorem terminate_subagent_subagents (st : ManagerState) (id : String) :
    (terminate_subagent st id).1.subagents = removeSub id st.subagents := by
  unfold terminate_subagent
  cases h : lookupSub id st.subagents with
  | none => simp [removeSub_of_lookup_none id st.subagents h]
  | some s =>
    dsimp only
    split <;> rfl

theorem foldl_terminate_subagents (ids : List String) (st : ManagerState) :
    (ids.foldl (fun s id => (terminate_subagent s id).1) st).subagents =
      st.subagents.filter (fun p => !ids.contains p.1) := by
  induction ids generalizing st with
  | nil => simp
  | cons id rest ih =>
    rw [List.foldl_cons, ih, terminate_subagent_subagents]
    unfold removeSub
    rw [List.filter_filter]
    apply List.filter_congr
    intro p _
    by_cases h1 : p.1 = id <;> simp [h1]

/-! ## Concrete fixtures -/

def recipe0 : Recipe := { title := "r", instructions := none, extensions := none }

def config0 : SubAgentConfig :=
  { id := "sa-1", recipe := recipe0, max_turns := none, timeout_seconds := none }

def doneMsg : Message := Message.assistant.with_text "done"

def env0 : Env :=
  { provider := [Except.ok doneMsg]
    dispatch := fun _ => Except.error "no dispatcher"
    getTools := Except.ok []
    recipes := fun _ => Except.ok recipe0
    availableExtensions := [] }

def sub0 : SubAgent := SubAgent.new [] config0

def subLimit : SubAgent :=
  { SubAgent.new [] { config0 with max_turns := some 1 } with turn_count := 1 }

def subTerm : SubAgent :=
  { SubAgent.new [] config0 with status := SubAgentStatus.Terminated }

def subTermLimit : SubAgent :=
  { SubAgent.new [] { config0 with max_turns := some 0 } with
    status := SubAgentStatus.Terminated }

def envRate : Env :=
  { env0 with provider := [Except.error (ProviderError.rateLimitExceeded "slow")] }

/-! ## Claims about the reply state machine -/

/-- Claim C1: for a subagent with `max_turns = m`, a `reply` arriving with
`turn_count >= m` sets status `Completed("Maximum turns exceeded")`, returns
the hard limit-exceeded error, and leaves both the conversation and the
turn counter unchanged; a `reply` accepted under the limit increments
`turn_count` by exactly one. -/
theorem reply_respects_turn_limit (env : Env) (msg : String) (s : SubAgent) (m : Nat)
    (h : s.config.max_turns = some m) :
    (m ≤ s.turn_count →
      (reply_subagent env msg s).1.status =
        SubAgentStatus.Completed "Maximum turns exceeded" ∧
      (reply_subagent env msg s).2 =
        ReplyResult.limitExceeded ("Maximum turns (" ++ toString m ++ ") exceeded") ∧
      (reply_subagent env msg s).1.conversation = s.conversation ∧
      (reply_subagent env msg s).1.turn_count = s.turn_count) ∧
    (s.turn_count < m →
      (reply_subagent env msg s).1.turn_count = s.turn_count + 1) := by
  constructor
  · intro hm
    simp [reply_subagent, h, hm, SubAgent.set_status]
  · intro hm
    have hnot : ¬ m ≤ s.turn_count := not_le.mpr hm
    simp [reply_subagent, h, hnot, replyBody_turn_count]

theorem reply_respects_turn_limit_witness :
    1 ≤ subLimit.turn_count ∧
    (reply_subagent env0 "go" subLimit).2 =
      ReplyResult.limitExceeded "Maximum turns (1) exceeded" :=
  ⟨by decide,
   ((reply_respects_turn_limit env0 "go" subLimit 1 rfl).1 (by decide)).2.1⟩

/-- Claim C2 counterexample: a subagent whose status is the terminal `Terminated`
but whose turn budget is unlimited accepts a further `reply`: the round
runs, the status is overwritten (ending `Ready`), the conversation grows,
and the turn counter is incremented — the source `reply_subagent` never
inspects the status. -/
theorem terminated_subagent_accepts_reply_cex :
    subTerm.status = SubAgentStatus.Terminated ∧
    (reply_subagent env0 "hello" subTerm).1.status = SubAgentStatus.Ready ∧
    (reply_subagent env0 "hello" subTerm).1.turn_count = subTerm.turn_count + 1 ∧
    (reply_subagent env0 "hello" subTerm).1.conversation =
      subTerm.conversation ++ [Message.user.with_text "hello", doneMsg] ∧
    (reply_subagent env0 "hello" subTerm).2 = ReplyResult.message doneMsg := by
  decide

/-- Claim C2, amended: `reply_subagent` does not inspect the status, so a
terminal status by itself does not block a further `reply`: the call is
rejected exactly when the turn budget is exhausted (in which case only the
status changes, to `Completed("Maximum turns exceeded")`, with a hard
limit error), and is otherwise processed, incrementing the turn counter;
an external `terminate` may still overwrite any status with `Terminated`. -/
theorem terminal_status_not_inspected_by_reply (env : Env) (msg : String)
    (s : SubAgent) (_hterm : s.status.isTerminal = true) :
    (turnLimitHit s = true →
      (reply_subagent env msg s).1.conversation = s.conversation ∧
      (reply_subagent env msg s).1.turn_count = s.turn_count ∧
      (reply_subagent env msg s).1.status =
        SubAgentStatus.Completed "Maximum turns exceeded" ∧
      ∃ e, (reply_subagent env msg s).2 = ReplyResult.limitExceeded e) ∧
    (turnLimitHit s = false →
      (reply_subagent env msg s).1.turn_count = s.turn_count + 1) ∧
    s.terminate.status = SubAgentStatus.Terminated := by
  refine ⟨?_, ?_, rfl⟩
  · intro hhit
    cases hmt : s.config.max_turns with
    | none => simp [turnLimitHit, hmt] at hhit
    | some m =>
      have hm : m ≤ s.turn_count := by
        simpa [turnLimitHit, hmt] using hhit
      simp [reply_subagent, hmt, hm, SubAgent.set_status]
  · intro hmiss
    cases hmt : s.config.max_turns with
    | none => simp [reply_subagent, hmt, replyBody_turn_count]
    | some m =>
      have hm : ¬ m ≤ s.turn_count := by
        simpa [turnLimitHit, hmt] using hmiss
      simp [reply_subagent, hmt, hm, replyBody_turn_count]

theorem terminal_status_not_inspected_by_reply_witness :
    subTermLimit.status.isTerminal = true ∧
    (reply_subagent env0 "x" subTermLimit).1.status =
      SubAgentStatus.Completed "Maximum turns exceeded" :=
  ⟨rfl,
   (((terminal_status_not_inspected_by_reply env0 "x" subTermLimit rfl).1 rfl).2.2.1)⟩

/-- Claim C3: when the provider completion call of a reply round fails, the round
ends with a terminal `Completed` status carrying the corresponding reason
and `reply` returns `Ok` with a non-empty assistant message (session
restart guidance for ContextLengthExceeded, retry-later text for
RateLimitExceeded, the embedded error text plus a retry suggestion
otherwise); the provider error is never propagated as a hard error. -/
theorem provider_error_is_in_band (env : Env) (msg : String) (s : SubAgent)
    (e : ProviderError) (rest : List (Except ProviderError Message))
    (ts : List String)
    (hlim : turnLimitHit s = false)
    (htools : env.getTools = Except.ok ts)
    (hprov : env.provider = Except.error e :: rest) :
    (reply_subagent env msg s).2 = ReplyResult.message (providerErrorMessage e) ∧
    (reply_subagent env msg s).1.status =
      SubAgentStatus.Completed (providerErrorReason e) ∧
    (SubAgentStatus.Completed (providerErrorReason e)).isTerminal = true ∧
    (providerErrorMessage e).role = Role.assistant ∧
    (providerErrorMessage e).content ≠ [] ∧
    providerErrorMessage (ProviderError.contextLengthExceeded "") =
      Message.assistant.with_context_length_exceeded
        "The context length of the model has been exceeded. Please start a new session and try again." := by
  have hrb : (replyBody env msg s).2 = ReplyResult.message (providerErrorMessage e) ∧
      (replyBody env msg s).1.status =
        SubAgentStatus.Completed (providerErrorReason e) := by
    unfold replyBody
    rw [htools, hprov]
    simp [replyLoop, SubAgent.set_status]
  have hmain : reply_subagent env msg s = replyBody env msg s := by
    unfold reply_subagent
    cases hmt : s.config.max_turns with
    | none => rfl
    | some m =>
      have hm : ¬ m ≤ s.turn_count := by
        simpa [turnLimitHit, hmt] using hlim
      simp [hm]
  refine ⟨by rw [hmain]; exact hrb.1, by rw [hmain]; exact hrb.2, rfl, ?_, ?_, rfl⟩
  · cases e <;> rfl
  · cases e <;>
      simp [providerErrorMessage, Message.assistant, Message.with_text,
        Message.with_context_length_exceeded]

theorem provider_error_is_in_band_witness :
    envRate.provider =
      Except.error (ProviderError.rateLimitExceeded "slow") :: [] ∧
    (reply_subagent envRate "q" sub0).2 =
      ReplyResult.message
        (Message.assistant.with_text "Rate limit exceeded. Please try again later.") :=
  ⟨rfl,
   (provider_error_is_in_band envRate "q" sub0
      (ProviderError.rateLimitExceeded "slow") [] [] rfl rfl rfl).1⟩

/-! ## Claims about the manager registry -/

def stOne : ManagerState :=
  { subagents := [("sa-1", sub0)], handles := ["sa-1"],
    aborted := [], detached := [] }

/-- Claim C6: terminating a registered id removes its registry entry and its
background-handle entry in the same call, sets the subagent's status to
`Terminated`, aborts the handle, and returns `Ok`; terminating an unknown
id returns the NotFound error and changes no state. -/
theorem terminate_registered_and_unknown (st : ManagerState) (id : String) :
    (∀ s, lookupSub id st.subagents = some s → id ∈ st.handles →
      (terminate_subagent st id).2 = Except.ok () ∧
      lookupSub id (terminate_subagent st id).1.subagents = none ∧
      id ∉ (terminate_subagent st id).1.handles ∧
      (terminate_subagent st id).1.aborted = id :: st.aborted ∧
      lookupSub id (terminate_subagent st id).1.detached = some s.terminate ∧
      s.terminate.status = SubAgentStatus.Terminated) ∧
    (lookupSub id st.subagents = none →
      terminate_subagent st id =
        (st, Except.error ("Subagent " ++ id ++ " not found"))) := by
  constructor
  · intro s hs hh
    have hsub := terminate_subagent_subagents st id
    unfold terminate_subagent at hsub ⊢
    rw [hs] at hsub ⊢
    dsimp only at hsub ⊢
    rw [if_pos hh] at hsub ⊢
    refine ⟨rfl, ?_, ?_, rfl, ?_, rfl⟩
    · rw [hsub]
      exact removeSub_not_mem id st.subagents
    · exact not_mem_filter_ne_self id st.handles
    · exact lookupSub_cons_self id s.terminate st.detached
  · intro h
    unfold terminate_subagent
    rw [h]

theorem terminate_registered_and_unknown_witness :
    lookupSub "sa-1" stOne.subagents = some sub0 ∧
    lookupSub "sa-1" (terminate_subagent stOne "sa-1").1.subagents = none :=
  ⟨by decide,
   ((terminate_registered_and_unknown stOne "sa-1").1 sub0 (by decide)
      (by decide)).2.1⟩

theorem eq_of_mem_of_nodup_keys {l : List (String × SubAgent)}
    (h : (l.map Prod.fst).Nodup) {p q : String × SubAgent}
    (hp : p ∈ l) (hq : q ∈ l) (he : p.1 = q.1) : p = q := by
  induction l with
  | nil => cases hp
  | cons a rest ih =>
    rw [List.map_cons, List.nodup_cons] at h
    rcases List.mem_cons.mp hp with hp1 | hp2 <;>
      rcases List.mem_cons.mp hq with hq1 | hq2
    · rw [hp1, hq1]
    · exfalso
      apply h.1
      rw [hp1] at he
      rw [he]
      exact List.mem_map_of_mem Prod.fst hq2
    · exfalso
      apply h.1
      rw [hq1] at he
      rw [← he]
      exact List.mem_map_of_mem Prod.fst hp2
    · exact ih h.2 hp2 hq2

/-- Claim C7: `cleanup_completed_subagents` removes from the registry exactly the
entries whose status is terminal (`Completed(_)` or `Terminated`, the
terminal variants of the source enum), leaves every `Ready` or `Processing`
entry untouched in place, and returns exactly the number of entries
removed. -/
theorem cleanup_removes_exactly_terminal (st : ManagerState)
    (hnd : (st.subagents.map Prod.fst).Nodup) :
    (cleanup_completed_subagents st).1.subagents =
      st.subagents.filter (fun p => !p.2.is_completed) ∧
    (cleanup_completed_subagents st).2 =
      (st.subagents.filter (fun p => p.2.is_completed)).length ∧
    (cleanup_completed_subagents st).2 =
      st.subagents.length - (cleanup_completed_subagents st).1.subagents.length := by
  have hmain :
      (cleanup_completed_subagents st).1.subagents =
        st.subagents.filter (fun p => !p.2.is_completed) := by
    unfold cleanup_completed_subagents
    dsimp only
    rw [foldl_terminate_subagents]
    apply List.filter_congr
    intro p hp
    by_cases hc : p.2.is_completed = true
    · have hmem : p.1 ∈
          ((st.subagents.filter (fun q => q.2.is_completed)).map Prod.fst) :=
        List.mem_map_of_mem Prod.fst (List.mem_filter.mpr ⟨hp, hc⟩)
      have : ((st.subagents.filter (fun q => q.2.is_completed)).map
          Prod.fst).contains p.1 = true := by
        simpa using hmem
      rw [this, hc]
    · have hb : p.2.is_completed = false := by
        simpa using hc
      have hnmem : p.1 ∉
          ((st.subagents.filter (fun q => q.2.is_completed)).map Prod.fst) := by
        intro hmem
        rcases List.mem_map.mp hmem with ⟨q, hqf, hq1⟩
        have hq := List.mem_filter.mp hqf
        have hqp : q = p := eq_of_mem_of_nodup_keys hnd hq.1 hp hq1
        rw [hqp] at hq
        rw [hq.2] at hb
        cases hb
      have : ((st.subagents.filter (fun q => q.2.is_completed)).map
          Prod.fst).contains p.1 = false := by
        simpa using hnmem
      rw [this, hb]
  have hcount :
      (cleanup_completed_subagents st).2 =
        (st.subagents.filter (fun p => p.2.is_completed)).length := by
    unfold cleanup_completed_subagents
    dsimp only
    rw [List.length_map]
  refine ⟨hmain, hcount, ?_⟩
  rw [hmain, hcount]
  have hsplit :
      (st.subagents.filter (fun p => p.2.is_completed)).length +
        (st.subagents.filter (fun p => !p.2.is_completed)).length =
      st.subagents.length := by
    induction st.subagents with
    | nil => rfl
    | cons p rest ih =>
      by_cases hc : p.2.is_completed = true <;>
        simp [List.filter, hc, ← ih] <;> omega
  omega

theorem cleanup_removes_exactly_terminal_witness :
    ((stOne.subagents.map Prod.fst).Nodup) ∧
    (cleanup_completed_subagents stOne).2 = 0 :=
  ⟨by decide,
   by
    have h := (cleanup_removes_exactly_terminal stOne (by decide)).2.1
    rw [h]
    decide⟩

def stTwoDone : ManagerState :=
  { subagents :=
      [("sa-1", { sub0 with status := SubAgentStatus.Completed "ok" }),
       ("sa-2", { sub0 with id := "sa-2", status := SubAgentStatus.Terminated })]
    handles := ["sa-1", "sa-2"]
    aborted := []
    detached := [] }

/-- Claim C8 counterexample: `terminate_all_subagents` returns the same value —
`Ok(())` — over a registry of two entries as over an empty registry, so its
return value cannot be the count of terminations the claim says it is (the
source signature is `Result<()>`). -/
theorem terminate_all_returns_no_count_cex :
    stTwoDone.subagents.length = 2 ∧
    ManagerState.new.subagents.length = 0 ∧
    (terminate_all_subagents stTwoDone).2 = Except.ok () ∧
    (terminate_all_subagents stTwoDone).2 =
      (terminate_all_subagents ManagerState.new).2 := by
  decide

/-- Claim C8, amended: `terminate_all_subagents` iterates over every currently
registered id (a failure on one id is recorded and does not abort the
rest), after the call the registry is empty, and it returns `Ok(())` — a
unit acknowledgement, not the count of terminations. -/
theorem terminate_all_empties_registry (st : ManagerState) :
    (terminate_all_subagents st).1.subagents = [] ∧
    (terminate_all_subagents st).2 = Except.ok () := by
  constructor
  · unfold terminate_all_subagents
    dsimp only
    rw [foldl_terminate_subagents]
    rw [List.filter_eq_nil_iff]
    intro p hp
    have hmem : p.1 ∈ st.subagents.map Prod.fst :=
      List.mem_map_of_mem Prod.fst hp
    have : (st.subagents.map Prod.fst).contains p.1 = true := by
      simpa using hmem
    rw [this]
    simp
  · rfl

theorem lookupSub_send_update_self (id : String) (um : Message)
    (l : List (String × SubAgent)) :
    lookupSub id
        (l.map fun p => if p.1 = id then (p.1, p.2.add_message um) else p) =
      (lookupSub id l).map (fun s => s.add_message um) := by
  induction l with
  | nil => rfl
  | cons p rest ih =>
    unfold lookupSub at ih ⊢
    rw [List.map_cons]
    by_cases hp : p.1 = id
    · rw [if_pos hp]
      rw [List.find?_cons_of_pos _ (by simpa using hp),
        List.find?_cons_of_pos _ (by simpa using hp)]
      rfl
    · rw [if_neg hp]
      rw [List.find?_cons_of_neg _ (by simpa using hp),
        List.find?_cons_of_neg _ (by simpa using hp)]
      exact ih

theorem lookupSub_send_update_ne (id id2 : String) (hne : id2 ≠ id) (um : Message)
    (l : List (String × SubAgent)) :
    lookupSub id2
        (l.map fun p => if p.1 = id then (p.1, p.2.add_message um) else p) =
      lookupSub id2 l := by
  induction l with
  | nil => rfl
  | cons p rest ih =>
    unfold lookupSub at ih ⊢
    rw [List.map_cons]
    by_cases hp : p.1 = id
    · rw [if_pos hp]
      by_cases hp2 : p.1 = id2
      · exact absurd (hp2 ▸ hp) (by simpa using hne.symm ∘ Eq.symm)
      · rw [List.find?_cons_of_neg _ (by simpa using hp2),
          List.find?_cons_of_neg _ (by simpa using hp2)]
        exact ih
    · rw [if_neg hp]
      by_cases hp2 : p.1 = id2
      · rw [List.find?_cons_of_pos _ (by simpa using hp2),
          List.find?_cons_of_pos _ (by simpa using hp2)]
      · rw [List.find?_cons_of_neg _ (by simpa using hp2),
          List.find?_cons_of_neg _ (by simpa using hp2)]
        exact ih

/-- Claim C9: `send_message_to_subagent` on a registered id appends exactly one
user-role message carrying the text to that subagent's conversation and
returns the acknowledgement string; it makes no provider call (the
operation takes no provider at all), leaves that subagent's status and
turn counter unchanged, leaves every other subagent and the rest of the
manager state unchanged; on an unknown id it returns the NotFound error
and changes nothing. -/
theorem send_message_appends_one_user_message (st : ManagerState) (id : String)
    (msg : String) :
    (∀ s, lookupSub id st.subagents = some s →
      (send_message_to_subagent st id msg).2 =
        Except.ok ("Message sent to subagent " ++ id) ∧
      lookupSub id (send_message_to_subagent st id msg).1.subagents =
        some (s.add_message (Message.user.with_text msg)) ∧
      (s.add_message (Message.user.with_text msg)).conversation =
        s.conversation ++ [Message.user.with_text msg] ∧
      (Message.user.with_text msg).role = Role.user ∧
      (s.add_message (Message.user.with_text msg)).status = s.status ∧
      (s.add_message (Message.user.with_text msg)).turn_count = s.turn_count ∧
      (∀ id2, id2 ≠ id →
        lookupSub id2 (send_message_to_subagent st id msg).1.subagents =
          lookupSub id2 st.subagents) ∧
      (send_message_to_subagent st id msg).1.handles = st.handles ∧
      (send_message_to_subagent st id msg).1.aborted = st.aborted ∧
      (send_message_to_subagent st id msg).1.detached = st.detached) ∧
    (lookupSub id st.subagents = none →
      send_message_to_subagent st id msg =
        (st, Except.error ("Subagent " ++ id ++ " not found"))) := by
  constructor
  · intro s hs
    unfold send_message_to_subagent
    rw [hs]
    dsimp only
    refine ⟨rfl, ?_, rfl, rfl, rfl, rfl, ?_, rfl, rfl, rfl⟩
    · rw [lookupSub_send_update_self, hs]
      rfl
    · intro id2 hne
      exact lookupSub_send_update_ne id id2 hne (Message.user.with_text msg)
        st.subagents
  · intro h
    unfold send_message_to_subagent
    rw [h]

theorem send_message_appends_one_user_message_witness :
    lookupSub "sa-1" (send_message_to_subagent stOne "sa-1" "hi").1.subagents =
      some (sub0.add_message (Message.user.with_text "hi")) ∧
    lookupSub "nope" stOne.subagents = none ∧
    send_message_to_subagent stOne "nope" "hi" =
      (stOne, Except.error "Subagent nope not found") :=
  ⟨((send_message_appends_one_user_message stOne "sa-1" "hi").1 sub0
      (by decide)).2.1,
   by decide,
   (send_message_appends_one_user_message stOne "nope" "hi").2 (by decide)⟩

/-! ## Claims about the tool-dispatch loop -/

def tcA : ToolCall := { name := "shell", arguments := "ls" }

def reqOkA : ToolRequest := { id := "call-1", tool_call := Except.ok tcA }

def reqBad : ToolRequest :=
  { id := "call-9", tool_call := Except.error (ToolError.executionError "malformed") }

def respBad : Message :=
  { role := Role.assistant, content := [MessageContent.toolRequest reqBad] }

def respWithTool : Message :=
  { role := Role.assistant, content := [MessageContent.toolRequest reqOkA] }

def envTool : Env :=
  { env0 with
    provider := [Except.ok respWithTool, Except.ok doneMsg]
    dispatch := fun _ => Except.ok (Except.ok "file.txt") }

/-- Claim C5 counterexample: a tool-call request embedded in the response whose
`tool_call` payload is itself an `Err` is collected among the response's
tool requests but skipped by the loop's `if let Ok(tool_call)`: it is never
dispatched, no result — error content or otherwise — is attached to the
response, and no record is appended to the conversation, refuting the
claim that every embedded tool-call request is dispatched with a result
attached. -/
theorem tool_request_err_is_skipped_cex :
    toolRequestsOf respBad = [reqBad] ∧
    processToolRequests env0 [reqBad] sub0 [] respBad = (sub0, [], respBad) := by
  decide

/-- Claim C5, amended: within one reply round the tool requests of a response
are processed sequentially in emission order; a request whose embedded
tool call parsed is dispatched — on dispatch success the tool result is
attached to the response and a tool-response record appended to the
conversation, on dispatch failure an error-content result is attached and
an error record appended — while a request whose embedded tool call is
itself an `Err` is skipped with nothing dispatched or attached; tool
processing never changes the status or turn counter, and a response
carrying tool requests always sends the loop into the next provider round,
so a dispatch failure never ends the round or escapes `reply` as an
error. -/
theorem tool_dispatch_sequential_and_nonfatal (env : Env)
    (reqs : List ToolRequest) (s : SubAgent) (msgs : List Message)
    (fr : Message) (response : Message)
    (rest : List (Except ProviderError Message))
    (hreq : (toolRequestsOf response).isEmpty = false) :
    (processToolRequests env reqs s msgs fr).1.conversation =
      s.conversation ++ toolEntries env reqs ∧
    (processToolRequests env reqs s msgs fr).2.2.content =
      fr.content ++ toolAttachments env reqs ∧
    (processToolRequests env reqs s msgs fr).1.status = s.status ∧
    (processToolRequests env reqs s msgs fr).1.turn_count = s.turn_count ∧
    (∀ req tc rest2, req.tool_call = Except.ok tc →
      (∀ outcome, env.dispatch tc = Except.ok outcome →
        toolEntries env (req :: rest2) =
          Message.user.with_text
            ("Tool response: " ++ formatToolOutcome outcome) ::
            toolEntries env rest2 ∧
        toolAttachments env (req :: rest2) =
          MessageContent.toolResponse req.id outcome ::
            toolAttachments env rest2) ∧
      (∀ err, env.dispatch tc = Except.error err →
        toolEntries env (req :: rest2) =
          Message.user.with_text ("Tool error: " ++ err) ::
            toolEntries env rest2 ∧
        toolAttachments env (req :: rest2) =
          MessageContent.toolResponse req.id
              (Except.error (ToolError.executionError err)) ::
            toolAttachments env rest2)) ∧
    replyLoop env (Except.ok response :: rest) s msgs =
      replyLoop env rest
        (processToolRequests env (toolRequestsOf response) s msgs response).1
        (processToolRequests env (toolRequestsOf response) s msgs
          response).2.1 := by
  rw [processToolRequests_eq]
  refine ⟨rfl, rfl, rfl, rfl, ?_, ?_⟩
  · intro req tc rest2 htc
    constructor
    · intro outcome hd
      constructor <;> simp [toolEntries, toolAttachments, htc, hd]
    · intro err hd
      constructor <;> simp [toolEntries, toolAttachments, htc, hd]
  · simp [replyLoop, hreq]

theorem tool_dispatch_sequential_and_nonfatal_witness :
    (toolRequestsOf respWithTool).isEmpty = false ∧
    (processToolRequests envTool [reqOkA] sub0 [] respWithTool).1.conversation =
      sub0.conversation ++ toolEntries envTool [reqOkA] :=
  ⟨by decide,
   (tool_dispatch_sequential_and_nonfatal envTool [reqOkA] sub0 []
      respWithTool respWithTool [] (by decide)).1⟩

/-! ## Claims about spawn -/

theorem lookupSub_insertSub_self (id : String) (s : SubAgent)
    (l : List (String × SubAgent)) :
    lookupSub id (insertSub id s l) = some s := by
  unfold insertSub
  exact lookupSub_cons_self id s _

theorem terminate_subagent_found (st : ManagerState) (id : String) (s : SubAgent)
    (h : lookupSub id st.subagents = some s) :
    (terminate_subagent st id).2 = Except.ok () ∧
    lookupSub id (terminate_subagent st id).1.subagents = none ∧
    id ∉ (terminate_subagent st id).1.handles ∧
    lookupSub id (terminate_subagent st id).1.detached = some s.terminate := by
  unfold terminate_subagent
  rw [h]
  dsimp only
  by_cases hh : id ∈ st.handles
  · rw [if_pos hh]
    exact ⟨rfl, removeSub_not_mem id st.subagents,
      not_mem_filter_ne_self id st.handles,
      lookupSub_cons_self id s.terminate st.detached⟩
  · rw [if_neg hh]
    exact ⟨rfl, removeSub_not_mem id st.subagents, hh,
      lookupSub_cons_self id s.terminate st.detached⟩

theorem terminate_subagent_found_pair (st st3 : ManagerState)
    (r : Except String Unit) (id : String) (s : SubAgent)
    (h : lookupSub id st.subagents = some s)
    (heq : terminate_subagent st id = (st3, r)) :
    r = Except.ok () ∧ lookupSub id st3.subagents = none ∧
    id ∉ st3.handles ∧ lookupSub id st3.detached = some s.terminate := by
  have hf := terminate_subagent_found st id s h
  rw [heq] at hf
  exact hf

theorem spawn_reply_failed_rollback (env : Env) (freshId : String)
    (args : SpawnSubAgentArgs) (st : ManagerState) (recipe : Recipe)
    (s1 : SubAgent) (e : String)
    (hrec : env.recipes args.recipe_name = Except.ok recipe)
    (hout : reply_subagent env args.message
        (SubAgent.new env.availableExtensions
          { id := freshId, recipe := recipe, max_turns := args.max_turns,
            timeout_seconds := args.timeout_seconds }) =
          (s1, ReplyResult.limitExceeded e) ∨
      reply_subagent env args.message
        (SubAgent.new env.availableExtensions
          { id := freshId, recipe := recipe, max_turns := args.max_turns,
            timeout_seconds := args.timeout_seconds }) =
          (s1, ReplyResult.toolsError e)) :
    ∃ st1 : ManagerState,
      spawn_interactive_subagent env freshId args st =
        some (st1, Except.error e) ∧
      lookupSub freshId st1.subagents = none ∧
      freshId ∉ st1.handles ∧
      lookupSub freshId st1.detached = some s1.terminate := by
  unfold spawn_interactive_subagent
  rw [hrec]
  dsimp only
  rcases hout with hout | hout <;> rw [hout] <;> dsimp only <;> split
  case _ st3 u heq =>
    have hres := terminate_subagent_found_pair _ st3 (Except.ok u) freshId s1
      (lookupSub_insertSub_self freshId s1 _) heq
    exact ⟨st3, rfl, hres.2.1, hres.2.2.1, hres.2.2.2⟩
  case _ st3 te heq =>
    have hres := terminate_subagent_found_pair _ st3 (Except.error te) freshId s1
      (lookupSub_insertSub_self freshId s1 _) heq
    cases hres.1
  case _ st3 u heq =>
    have hres := terminate_subagent_found_pair _ st3 (Except.ok u) freshId s1
      (lookupSub_insertSub_self freshId s1 _) heq
    exact ⟨st3, rfl, hres.2.1, hres.2.2.1, hres.2.2.2⟩
  case _ st3 te heq =>
    have hres := terminate_subagent_found_pair _ st3 (Except.error te) freshId s1
      (lookupSub_insertSub_self freshId s1 _) heq
    cases hres.1

/-- Claim C4: when the initial reply of a spawn fails with an error, spawn
returns that same error to its caller, and afterwards neither the registry
nor the background-handle map has an entry for the newly created id, while
the rolled-back subagent's status is `Terminated` — no half-initialized
subagent remains registered. -/
theorem spawn_rolls_back_on_reply_failure (env : Env) (freshId : String)
    (args : SpawnSubAgentArgs) (st : ManagerState) (recipe : Recipe)
    (s1 : SubAgent) (errText : String)
    (hrec : env.recipes args.recipe_name = Except.ok recipe)
    (hout : reply_subagent env args.message
        (SubAgent.new env.availableExtensions
          { id := freshId, recipe := recipe, max_turns := args.max_turns,
            timeout_seconds := args.timeout_seconds }) = (s1, ReplyResult.limitExceeded errText) ∨
      reply_subagent env args.message
        (SubAgent.new env.availableExtensions
          { id := freshId, recipe := recipe, max_turns := args.max_turns,
            timeout_seconds := args.timeout_seconds }) = (s1, ReplyResult.toolsError errText)) :
    ∃ st1 : ManagerState,
      spawn_interactive_subagent env freshId args st =
        some (st1, Except.error errText) ∧
      lookupSub freshId st1.subagents = none ∧
      freshId ∉ st1.handles ∧
      ∃ sT, lookupSub freshId st1.detached = some sT ∧
        sT.status = SubAgentStatus.Terminated := by
  rcases spawn_reply_failed_rollback env freshId args st recipe s1 errText hrec
    hout with ⟨st1, hspawn, hreg, hhandle, hdet⟩
  exact ⟨st1, hspawn, hreg, hhandle, s1.terminate, hdet, rfl⟩

def argsFail : SpawnSubAgentArgs :=
  { recipe_name := "r", message := "start", max_turns := none,
    timeout_seconds := none }

def envToolsDown : Env := { env0 with getTools := Except.error "tools offline" }

theorem spawn_rolls_back_on_reply_failure_witness :
    ∃ st1 : ManagerState,
      spawn_interactive_subagent envToolsDown "sa-9" argsFail ManagerState.new =
        some (st1, Except.error "tools offline") ∧
      lookupSub "sa-9" st1.subagents = none ∧
      "sa-9" ∉ st1.handles ∧
      ∃ sT, lookupSub "sa-9" st1.detached = some sT ∧
        sT.status = SubAgentStatus.Terminated :=
  spawn_rolls_back_on_reply_failure envToolsDown "sa-9" argsFail
    ManagerState.new recipe0 _ "tools offline" rfl (Or.inr rfl)

/-- Claim C10: a spawn whose arguments set max_turns = 0 always fails: the
initial reply is rejected by the turn-limit precondition (turn_count 0 is
already >= 0), so spawn returns the limit error, the new subagent's
conversation stays empty, and no registry or handle entry for the new id
remains afterwards (the rolled-back object ends `Terminated`). -/
theorem spawn_with_zero_max_turns_fails (env : Env) (freshId : String)
    (args : SpawnSubAgentArgs) (st : ManagerState) (recipe : Recipe)
    (hrec : env.recipes args.recipe_name = Except.ok recipe)
    (hzero : args.max_turns = some 0) :
    ∃ st1 : ManagerState,
      spawn_interactive_subagent env freshId args st =
        some (st1, Except.error "Maximum turns (0) exceeded") ∧
      lookupSub freshId st1.subagents = none ∧
      freshId ∉ st1.handles ∧
      ∃ sT, lookupSub freshId st1.detached = some sT ∧
        sT.conversation = [] ∧ sT.status = SubAgentStatus.Terminated := by
  have hreply : reply_subagent env args.message
      (SubAgent.new env.availableExtensions
        { id := freshId, recipe := recipe, max_turns := args.max_turns,
          timeout_seconds := args.timeout_seconds }) =
      ((SubAgent.new env.availableExtensions
          { id := freshId, recipe := recipe, max_turns := args.max_turns,
            timeout_seconds := args.timeout_seconds }).set_status
            (SubAgentStatus.Completed "Maximum turns exceeded"),
       ReplyResult.limitExceeded "Maximum turns (0) exceeded") := by
    rw [hzero]
    rfl
  rcases spawn_reply_failed_rollback env freshId args st recipe _ _ hrec
    (Or.inl hreply) with ⟨st1, hspawn, hreg, hh, hdet⟩
  exact ⟨st1, hspawn, hreg, hh, _, hdet, rfl, rfl⟩

def argsZero : SpawnSubAgentArgs :=
  { recipe_name := "r", message := "start", max_turns := some 0,
    timeout_seconds := none }

theorem spawn_with_zero_max_turns_fails_witness :
    ∃ st1 : ManagerState,
      spawn_interactive_subagent env0 "sa-0" argsZero ManagerState.new =
        some (st1, Except.error "Maximum turns (0) exceeded") ∧
      lookupSub "sa-0" st1.subagents = none ∧
      "sa-0" ∉ st1.handles ∧
      ∃ sT, lookupSub "sa-0" st1.detached = some sT ∧
        sT.conversation = [] ∧ sT.status = SubAgentStatus.Terminated :=
  spawn_with_zero_max_turns_fails env0 "sa-0" argsZero ManagerState.new
    recipe0 rfl rfl

end Goose
